import Mathlib

/-!
Shallow embedding of the booking core of the luxe-salon-backend repository:
the validation chain, the Create conflict check, the status update and cancel
operations, and the availability slot computation of `src/routes/bookings.js`,
together with the `pre('save')` hook of `src/models/Booking.js`.

Dates are modelled at calendar-day granularity as integers (day 0 falling on a
Thursday, matching the Unix epoch used by the JavaScript `Date.getDay`);
document ids are modelled as opaque naturals, so the `isMongoId` format check
on the id string holds of every modelled id by construction.  Times of day
stay strings, exactly as the code stores and compares them.
-/

namespace LuxeSalon

/-- The `status` enum of `bookingSchema` in `src/models/Booking.js`. -/
inductive BStatus where
  | pending
  | confirmed
  | completed
  | cancelled
deriving DecidableEq

/-- The `paymentStatus` enum of `bookingSchema`. -/
inductive PayStatus where
  | pending
  | paid
  | refunded
deriving DecidableEq

/-- A document of the Service collection (`src/models/Service.js`), with the
fields the booking routes read. -/
structure Service where
  id : Nat
  name : String
  description : String
  price : Int
  duration : String
  category : String
  icon : String
  popular : Bool
  available : Bool
deriving DecidableEq

/-- A document of the Booking collection (`src/models/Booking.js`). -/
structure Booking where
  id : Nat
  clientName : String
  clientEmail : String
  clientPhone : String
  service : Nat
  serviceName : String
  servicePrice : Int
  serviceDuration : String
  serviceCategory : String
  appointmentDate : Int
  appointmentTime : String
  notes : String
  status : BStatus
  totalAmount : Int
  paymentStatus : PayStatus
  createdAt : Int
  updatedAt : Int
deriving DecidableEq

/-- Whitespace for the JavaScript `String.prototype.trim` sanitizer. -/
def isSpaceChar (c : Char) : Bool :=
  c == ' ' || c == '\t' || c == '\n' || c == '\r'

/-- Strip leading and trailing whitespace from a character list. -/
def trimChars (l : List Char) : List Char :=
  ((l.dropWhile isSpaceChar).reverse.dropWhile isSpaceChar).reverse

/-- The `.trim()` sanitizer applied by the validation chain. -/
def jsTrim (s : String) : String :=
  String.mk (trimChars s.data)

/-- The regular expression `^([01]?[0-9]|2[0-3]):[0-5][0-9]$` from the
`appointmentTime` rule of `validateBooking`, matched against a character
list: an optionally zero-padded hour 0..23, a colon, and a two-digit
minute 00..59. -/
def timeFormatChars : List Char → Bool
  | [h, ':', m1, m2] =>
      h.isDigit && ('0' ≤ m1 && m1 ≤ '5') && m2.isDigit
  | [h1, h2, ':', m1, m2] =>
      (((h1 == '0' || h1 == '1') && h2.isDigit) ||
        (h1 == '2' && ('0' ≤ h2 && h2 ≤ '3'))) &&
      ('0' ≤ m1 && m1 ≤ '5') && m2.isDigit
  | _ => false

/-- The `appointmentTime` validation rule: trim, then match the HH:MM
regular expression. -/
def appointmentTimeOk (s : String) : Bool :=
  timeFormatChars (jsTrim s).data

/-- Split a character list at every occurrence of a separator character. -/
def splitOnChar (c : Char) : List Char → List (List Char)
  | [] => [[]]
  | x :: xs =>
      let r := splitOnChar c xs
      if x == c then [] :: r
      else
        match r with
        | y :: ys => (x :: y) :: ys
        | [] => [[x]]

/-- Modelled from the spec: Create "validates clientInfo shape (name length
2–100; email well-formed; phone minimum length)".  The route delegates the
email check to the express-validator `isEmail` predicate, whose implementation
is outside this repository; it is modelled as a nonempty local part, exactly
one at-sign, and a domain of at least two nonempty dot-separated labels. -/
def isEmailLike (s : String) : Bool :=
  match splitOnChar '@' s.data with
  | [l, d] =>
      !l.isEmpty &&
        (let parts := splitOnChar '.' d
         decide (2 ≤ parts.length) && parts.all (fun p => !p.isEmpty))
  | _ => false

/-- The `clientName` rule: trimmed length between 2 and 100. -/
def nameLenOk (s : String) : Bool :=
  decide (2 ≤ (jsTrim s).length) && decide ((jsTrim s).length ≤ 100)

/-- The `clientPhone` rule: trimmed length at least 10. -/
def phoneLenOk (s : String) : Bool :=
  decide (10 ≤ (jsTrim s).length)

/-- The optional `notes` rule: when present, trimmed length at most 500. -/
def notesOk : Option String → Bool
  | none => true
  | some s => decide ((jsTrim s).length ≤ 500)

/-- The `appointmentDate` custom rule: `new Date(value) > new Date()`,
i.e. the appointment date is strictly in the future. -/
def futureDateOk (now d : Int) : Bool :=
  decide (now < d)

/-- The request body of `POST /` on the bookings router, after JSON parsing:
the ISO-8601 `appointmentDate` string is modelled as the integer day it
denotes, and the Mongo id string of `service` as an opaque natural. -/
structure CreateInput where
  clientName : String
  clientEmail : String
  clientPhone : String
  serviceId : Nat
  appointmentDate : Int
  appointmentTime : String
  notes : Option String
deriving DecidableEq

/-- The `validateBooking` middleware chain of `src/routes/bookings.js`:
the request passes when every rule passes (the handler rejects with a 400
validation error as soon as `validationResult` is nonempty). -/
def validateBookingInput (now : Int) (inp : CreateInput) : Bool :=
  nameLenOk inp.clientName &&
  isEmailLike inp.clientEmail &&
  phoneLenOk inp.clientPhone &&
  futureDateOk now inp.appointmentDate &&
  appointmentTimeOk inp.appointmentTime &&
  notesOk inp.notes

/-- The `Booking.findOne` conflict filter of the create handler: identical
appointment date, identical appointment time, and status in
`{pending, confirmed}`. -/
def conflictsWith (d : Int) (t : String) (b : Booking) : Bool :=
  b.appointmentDate == d && b.appointmentTime == t &&
    (b.status == BStatus.pending || b.status == BStatus.confirmed)

/-- The `bookingSchema.pre('save')` hook of `src/models/Booking.js`:
`totalAmount = servicePrice` and `updatedAt = new Date()`. -/
def preSave (now : Int) (b : Booking) : Booking :=
  { b with totalAmount := b.servicePrice, updatedAt := now }

/-- The `notes: notes || 'No special requests'` default of the create
handler; an empty (trimmed) notes string is falsy in JavaScript and also
falls back to the placeholder. -/
def notesOrDefault : Option String → String
  | none => "No special requests"
  | some s => if jsTrim s = "" then "No special requests" else jsTrim s

/-- Outcome alternatives of the create handler: 201 with the saved booking,
400 validation failure, 404 service not found, 409 slot conflict. -/
inductive CreateResult where
  | created (b : Booking)
  | validationFailed
  | serviceNotFound
  | conflict
deriving DecidableEq

/-- Result of a `POST /` request: the Booking collection afterwards, the
response, and whether a confirmation-email failure was caught and logged. -/
structure CreateOutcome where
  store : List Booking
  result : CreateResult
  emailFailureLogged : Bool
deriving DecidableEq

/-- The Booking document the create handler constructs (`new Booking({...})`
with the service snapshot and `totalAmount: service.price`), after the save
ran the pre-save hook. -/
def mkBooking (now : Int) (newId : Nat) (inp : CreateInput) (svc : Service) : Booking :=
  preSave now
    { id := newId
      clientName := jsTrim inp.clientName
      clientEmail := inp.clientEmail
      clientPhone := jsTrim inp.clientPhone
      service := inp.serviceId
      serviceName := svc.name
      servicePrice := svc.price
      serviceDuration := svc.duration
      serviceCategory := svc.category
      appointmentDate := inp.appointmentDate
      appointmentTime := jsTrim inp.appointmentTime
      notes := notesOrDefault inp.notes
      status := BStatus.pending
      totalAmount := svc.price
      paymentStatus := PayStatus.pending
      createdAt := now
      updatedAt := now }

/-- The `POST /` handler of `src/routes/bookings.js`: run `validateBooking`,
resolve the service, run the conflict query, construct the booking with the
service snapshot and `totalAmount = service.price`, save it (running the
pre-save hook), and attempt the confirmation email inside a try/catch whose
catch only logs.  `emailDelivered` models whether `sendBookingConfirmation`
succeeds; `now` is the server clock; `newId` the id Mongo assigns. -/
def createBooking (now : Int) (services : List Service) (store : List Booking)
    (newId : Nat) (inp : CreateInput) (emailDelivered : Bool) : CreateOutcome :=
  if validateBookingInput now inp then
    match services.find? (fun s => s.id == inp.serviceId) with
    | none => ⟨store, CreateResult.serviceNotFound, false⟩
    | some svc =>
        match store.find? (conflictsWith inp.appointmentDate (jsTrim inp.appointmentTime)) with
        | some _ => ⟨store, CreateResult.conflict, false⟩
        | none =>
            let saved := mkBooking now newId inp svc
            ⟨store ++ [saved], CreateResult.created saved, !emailDelivered⟩
  else ⟨store, CreateResult.validationFailed, false⟩

/-- The `validStatuses` list of the status-update handler, as a decoding of
the request's status string into the enum. -/
def statusOfString (s : String) : Option BStatus :=
  if s = "pending" then some BStatus.pending
  else if s = "confirmed" then some BStatus.confirmed
  else if s = "completed" then some BStatus.completed
  else if s = "cancelled" then some BStatus.cancelled
  else none

/-- Overwrite the status field, as `findByIdAndUpdate(id, { status })` and
`booking.status = 'cancelled'` do. -/
def setStatus (st : BStatus) (b : Booking) : Booking :=
  { b with status := st }

/-- Outcome alternatives of `PATCH /:id/status`: 200 with the updated
booking, 400 invalid status string, 404 booking not found. -/
inductive UpdateResult where
  | updated (b : Booking)
  | invalidArgument
  | bookingNotFound
deriving DecidableEq

/-- The `PATCH /:id/status` handler: reject a status string outside
`validStatuses`, then `findByIdAndUpdate` with the new status, 404 when the
id matches nothing, otherwise answer with the updated document.  The update
writes only the status field and runs no save hook. -/
def updateBookingStatus (store : List Booking) (id : Nat) (statusStr : String) :
    List Booking × UpdateResult :=
  match statusOfString statusStr with
  | none => (store, UpdateResult.invalidArgument)
  | some st =>
      match store.find? (fun b => b.id == id) with
      | none => (store, UpdateResult.bookingNotFound)
      | some b =>
          (store.map (fun x => if x.id == id then setStatus st x else x),
            UpdateResult.updated (setStatus st b))

/-- Outcome alternatives of `PATCH /:id/cancel`: 200 with the cancelled
booking, 404 booking not found, 400 already cancelled, 400 completed. -/
inductive CancelResult where
  | cancelled (b : Booking)
  | bookingNotFound
  | alreadyCancelled
  | cannotCancelCompleted
deriving DecidableEq

/-- The `PATCH /:id/cancel` handler: `findById`, 404 when absent, 400 when
the status is already `cancelled`, 400 when it is `completed`, otherwise set
the status to `cancelled` and save (running the pre-save hook). -/
def cancelBooking (now : Int) (store : List Booking) (id : Nat) :
    List Booking × CancelResult :=
  match store.find? (fun b => b.id == id) with
  | none => (store, CancelResult.bookingNotFound)
  | some b =>
      if b.status == BStatus.cancelled then (store, CancelResult.alreadyCancelled)
      else if b.status == BStatus.completed then (store, CancelResult.cannotCancelCompleted)
      else
        (store.map (fun x =>
            if x.id == id then preSave now (setStatus BStatus.cancelled x) else x),
          CancelResult.cancelled (preSave now (setStatus BStatus.cancelled b)))

/-- `Date.prototype.getDay` on a day-granularity date: day 0 of the epoch is
a Thursday, and Sunday is 0. -/
def dayOfWeek (d : Int) : Int :=
  (d + 4) % 7

/-- `${hour}.toString().padStart(2, '0')` for the slot strings. -/
def pad2 (n : Nat) : String :=
  if n < 10 then "0" ++ toString n else toString n

/-- The nested slot-generation loops of the availability handler: hours 9
through 17, minutes 0 and 30, each rendered as a zero-padded `HH:MM`. -/
def slotGrid : List String :=
  (List.range' 9 9).flatMap fun hour =>
    ([0, 30] : List Nat).map fun minute => pad2 hour ++ ":" ++ pad2 minute

/-- The `Booking.find` filter of the availability handler: same appointment
date and status in `{pending, confirmed}`. -/
def activeOnDate (date : Int) (b : Booking) : Bool :=
  b.appointmentDate == date &&
    (b.status == BStatus.pending || b.status == BStatus.confirmed)

/-- Outcome alternatives of `GET /available-slots/:date`: 200 with the slot
list, 400 missing service id, 404 service not found. -/
inductive SlotsResult where
  | ok (slots : List String)
  | missingServiceId
  | serviceMissing
deriving DecidableEq

/-- The `GET /available-slots/:date` handler: require a `serviceId`, resolve
the service, answer `[]` on a Sunday, otherwise collect the appointment times
of the active bookings on the date and keep every grid slot not among them
(`!bookedTimes.includes(time)`). -/
def availableSlots (services : List Service) (store : List Booking)
    (serviceId : Option Nat) (date : Int) : SlotsResult :=
  match serviceId with
  | none => SlotsResult.missingServiceId
  | some sid =>
      match services.find? (fun s => s.id == sid) with
      | none => SlotsResult.serviceMissing
      | some _ =>
          if dayOfWeek date == 0 then SlotsResult.ok []
          else
            let bookedTimes := (store.filter (activeOnDate date)).map Booking.appointmentTime
            SlotsResult.ok (slotGrid.filter fun t => !(bookedTimes.contains t))

/-- The `PUT /:id` handler of the services router, restricted to the price
field it may change: `Service.findByIdAndUpdate` touches only the Service
collection and never the Booking collection. -/
def updateServicePrice (services : List Service) (sid : Nat) (newPrice : Int) :
    List Service :=
  services.map (fun s => if s.id == sid then { s with price := newPrice } else s)

/-- The services route paired with the Booking collection: `PUT /:id` in
`src/routes/services.js` reads and writes Service documents only, so the
Booking collection passes through unchanged. -/
def updateServiceRoute (services : List Service) (store : List Booking)
    (sid : Nat) (newPrice : Int) : List Service × List Booking :=
  (updateServicePrice services sid newPrice, store)

/-- Decode a zero-padded `HH:MM` slot string to minutes since midnight, for
stating the ordering of the slot grid. -/
def slotMinutes (s : String) : Nat :=
  match s.data with
  | [h1, h2, ':', m1, m2] =>
      ((h1.toNat - 48) * 10 + (h2.toNat - 48)) * 60 +
        ((m1.toNat - 48) * 10 + (m2.toNat - 48))
  | _ => 0

/-- A booking's per-document price invariant: `totalAmount` equals the
`servicePrice` snapshot stored on the document. -/
def priceInv (store : List Booking) : Prop :=
  ∀ b ∈ store, b.totalAmount = b.servicePrice

/-! Concrete fixtures used by the witnesses and counterexamples. -/

/-- A concrete Service document. -/
def exService : Service :=
  { id := 7
    name := "Haircut"
    description := "A classic haircut with styling"
    price := 50
    duration := "45 min"
    category := "Hair"
    icon := "scissors-icon"
    popular := true
    available := true }

/-- The Service collection of the examples. -/
def exServices : List Service := [exService]

/-- A concrete active Booking at day 5, "10:00". -/
def exBooking : Booking :=
  { id := 1
    clientName := "Bob Jones"
    clientEmail := "bob@example.com"
    clientPhone := "9876543210"
    service := 7
    serviceName := "Haircut"
    servicePrice := 50
    serviceDuration := "45 min"
    serviceCategory := "Hair"
    appointmentDate := 5
    appointmentTime := "10:00"
    notes := "No special requests"
    status := BStatus.pending
    totalAmount := 50
    paymentStatus := PayStatus.pending
    createdAt := 0
    updatedAt := 0 }

/-- A concrete valid create request for day 5 at "10:00". -/
def exInput : CreateInput :=
  { clientName := "Alice Smith"
    clientEmail := "alice@example.com"
    clientPhone := "0123456789"
    serviceId := 7
    appointmentDate := 5
    appointmentTime := "10:00"
    notes := none }

/-- C3: on every open weekday (not Sunday) with zero active bookings on the
date, the availability handler returns exactly the 18-slot grid 09:00..17:30
at 30-minute steps, strictly ascending, with no duplicates. -/
theorem c3_open_weekday_full_grid (services : List Service) (store : List Booking)
    (sid : Nat) (svc : Service) (date : Int)
    (hsvc : services.find? (fun s => s.id == sid) = some svc)
    (hday : dayOfWeek date ≠ 0)
    (hempty : ∀ b ∈ store, activeOnDate date b = false) :
    availableSlots services store (some sid) date = SlotsResult.ok slotGrid ∧
    slotGrid.length = 18 ∧
    slotGrid = ["09:00", "09:30", "10:00", "10:30", "11:00", "11:30",
      "12:00", "12:30", "13:00", "13:30", "14:00", "14:30",
      "15:00", "15:30", "16:00", "16:30", "17:00", "17:30"] ∧
    List.Pairwise (fun a b => slotMinutes a < slotMinutes b) slotGrid ∧
    slotGrid.Nodup := by
  refine ⟨?_, by decide, by decide, by decide, by decide⟩
  have hfil : store.filter (activeOnDate date) = [] :=
    List.filter_eq_nil_iff.mpr (fun b hb => by simp [hempty b hb])
  simp [availableSlots, hsvc, hday, hfil, List.filter_eq_self]

/-- C3 witness: day 5 is an open weekday and the empty store yields the full
grid. -/
theorem c3_witness :
    availableSlots exServices [] (some 7) 5 = SlotsResult.ok slotGrid ∧
    slotGrid.length = 18 ∧
    slotGrid = ["09:00", "09:30", "10:00", "10:30", "11:00", "11:30",
      "12:00", "12:30", "13:00", "13:30", "14:00", "14:30",
      "15:00", "15:30", "16:00", "16:30", "17:00", "17:30"] ∧
    List.Pairwise (fun a b => slotMinutes a < slotMinutes b) slotGrid ∧
    slotGrid.Nodup :=
  c3_open_weekday_full_grid exServices [] 7 exService 5 (by decide) (by decide)
    (fun b hb => by simp at hb)

/-- C4: on every Sunday date the availability handler answers the empty slot
list, whatever the Booking collection holds. -/
theorem c4_sunday_empty (services : List Service) (store : List Booking)
    (sid : Nat) (svc : Service) (date : Int)
    (hsvc : services.find? (fun s => s.id == sid) = some svc)
    (hday : dayOfWeek date = 0) :
    availableSlots services store (some sid) date = SlotsResult.ok [] := by
  simp [availableSlots, hsvc, hday]

/-- C4 witness: day 3 is a Sunday, and even with an active booking on that
very day at a grid time the handler answers the empty list. -/
theorem c4_witness :
    availableSlots exServices
      [{ exBooking with appointmentDate := 3 }] (some 7) 3 = SlotsResult.ok [] :=
  c4_sunday_empty exServices [{ exBooking with appointmentDate := 3 }] 7 exService 3
    (by decide) (by decide)

/-- C1: when the collection already holds a booking with the identical
(date, time) pair in status pending or confirmed, a create request for that
pair which passes validation and service resolution answers 409 Conflict and
leaves the collection unchanged. -/
theorem c1_create_conflict (now : Int) (services : List Service) (store : List Booking)
    (newId : Nat) (inp : CreateInput) (ed : Bool) (b : Booking)
    (hv : validateBookingInput now inp = true)
    (hsvc : (services.find? (fun s => s.id == inp.serviceId)).isSome = true)
    (hb : b ∈ store)
    (hdate : b.appointmentDate = inp.appointmentDate)
    (htime : b.appointmentTime = jsTrim inp.appointmentTime)
    (hstat : b.status = BStatus.pending ∨ b.status = BStatus.confirmed) :
    createBooking now services store newId inp ed =
      ⟨store, CreateResult.conflict, false⟩ := by
  obtain ⟨svc, hsvc'⟩ := Option.isSome_iff_exists.mp hsvc
  have hpred : conflictsWith inp.appointmentDate (jsTrim inp.appointmentTime) b = true := by
    rcases hstat with h | h <;> simp [conflictsWith, hdate, htime, h]
  have hfind :
      (store.find? (conflictsWith inp.appointmentDate (jsTrim inp.appointmentTime))).isSome = true :=
    List.find?_isSome.mpr ⟨b, hb, hpred⟩
  obtain ⟨b', hb'⟩ := Option.isSome_iff_exists.mp hfind
  simp [createBooking, hv, hsvc', hb']

/-- C1 witness: with day 5, "10:00" already booked and pending, the concrete
valid request for the same pair answers Conflict and the store stays put. -/
theorem c1_witness :
    createBooking 0 exServices [exBooking] 2 exInput true =
      ⟨[exBooking], CreateResult.conflict, false⟩ :=
  c1_create_conflict 0 exServices [exBooking] 2 exInput true exBooking
    (by decide) (by decide) (by simp) (by decide) (by decide) (Or.inl (by decide))

/-- C6: the cancel handler answers NotFound for an absent id, rejects a
booking already cancelled, rejects a completed booking, and otherwise sets
the status to cancelled, persists the updated document, and returns it. -/
theorem c6_cancel_semantics (now : Int) (store : List Booking) (id : Nat) :
    ((∀ b ∈ store, b.id ≠ id) →
        cancelBooking now store id = (store, CancelResult.bookingNotFound)) ∧
    (∀ b, store.find? (fun x => x.id == id) = some b →
      (b.status = BStatus.cancelled →
          cancelBooking now store id = (store, CancelResult.alreadyCancelled)) ∧
      (b.status = BStatus.completed →
          cancelBooking now store id = (store, CancelResult.cannotCancelCompleted)) ∧
      (b.status ≠ BStatus.cancelled → b.status ≠ BStatus.completed →
          (cancelBooking now store id).2 =
            CancelResult.cancelled (preSave now (setStatus BStatus.cancelled b)) ∧
          (preSave now (setStatus BStatus.cancelled b)).status = BStatus.cancelled ∧
          preSave now (setStatus BStatus.cancelled b) ∈ (cancelBooking now store id).1)) := by
  constructor
  · intro hnone
    have hf : store.find? (fun x => x.id == id) = none :=
      List.find?_eq_none.mpr (fun x hx => by simp [hnone x hx])
    simp [cancelBooking, hf]
  · intro b hb
    have hbeq : (b.id == id) = true := by simpa using List.find?_some hb
    have hmem : b ∈ store := List.mem_of_find?_eq_some hb
    refine ⟨fun hc => by simp [cancelBooking, hb, hc],
      fun hc => by simp [cancelBooking, hb, hc], ?_⟩
    intro h1 h2
    have hc1 : (b.status == BStatus.cancelled) = false := by simp [h1]
    have hc2 : (b.status == BStatus.completed) = false := by simp [h2]
    refine ⟨by simp [cancelBooking, hb, hc1, hc2], rfl, ?_⟩
    have hm := List.mem_map_of_mem
      (fun x => if x.id == id then preSave now (setStatus BStatus.cancelled x) else x) hmem
    simp only [cancelBooking, hb, hc1, hc2]
    simp only [Bool.false_eq_true, if_false]
    simpa [hbeq] using hm

/-- C6 witness: cancelling the pending booking with id 1 succeeds and the
cancelled document is persisted. -/
theorem c6_witness :
    (cancelBooking 2 [exBooking] 1).2 =
      CancelResult.cancelled (preSave 2 (setStatus BStatus.cancelled exBooking)) ∧
    (preSave 2 (setStatus BStatus.cancelled exBooking)).status = BStatus.cancelled ∧
    preSave 2 (setStatus BStatus.cancelled exBooking) ∈ (cancelBooking 2 [exBooking] 1).1 :=
  ((c6_cancel_semantics 2 [exBooking] 1).2 exBooking (by decide)).2.2
    (by decide) (by decide)

/-- C7: the status-update handler rejects a status string outside the four
enumerated values, answers NotFound for an absent id, and otherwise
overwrites the status unconditionally — whatever the old status was — and
persists and returns the updated booking. -/
theorem c7_update_status_semantics (store : List Booking) (id : Nat) (s : String) :
    (s ∉ (["pending", "confirmed", "completed", "cancelled"] : List String) →
        updateBookingStatus store id s = (store, UpdateResult.invalidArgument)) ∧
    (∀ st, statusOfString s = some st →
       ((∀ b ∈ store, b.id ≠ id) →
           updateBookingStatus store id s = (store, UpdateResult.bookingNotFound)) ∧
       (∀ b, store.find? (fun x => x.id == id) = some b →
           (updateBookingStatus store id s).2 = UpdateResult.updated (setStatus st b) ∧
           (setStatus st b).status = st ∧
           setStatus st b ∈ (updateBookingStatus store id s).1)) := by
  constructor
  · intro hs
    have h1 : s ≠ "pending" := fun h => hs (by simp [h])
    have h2 : s ≠ "confirmed" := fun h => hs (by simp [h])
    have h3 : s ≠ "completed" := fun h => hs (by simp [h])
    have h4 : s ≠ "cancelled" := fun h => hs (by simp [h])
    simp [updateBookingStatus, statusOfString, h1, h2, h3, h4]
  · intro st hst
    constructor
    · intro hnone
      have hf : store.find? (fun x => x.id == id) = none :=
        List.find?_eq_none.mpr (fun x hx => by simp [hnone x hx])
      simp [updateBookingStatus, hst, hf]
    · intro b hb
      have hbeq : (b.id == id) = true := by simpa using List.find?_some hb
      have hmem : b ∈ store := List.mem_of_find?_eq_some hb
      refine ⟨by simp [updateBookingStatus, hst, hb], rfl, ?_⟩
      have hm := List.mem_map_of_mem (fun x => if x.id == id then setStatus st x else x) hmem
      simp only [updateBookingStatus, hst, hb]
      simpa [hbeq] using hm

/-- A completed booking, for exercising the backward transition. -/
def exBookingDone : Booking :=
  { exBooking with id := 4, status := BStatus.completed }

/-- C7 witness: the administrative override moves a completed booking back to
pending. -/
theorem c7_witness :
    (updateBookingStatus [exBookingDone] 4 "pending").2 =
      UpdateResult.updated (setStatus BStatus.pending exBookingDone) ∧
    (setStatus BStatus.pending exBookingDone).status = BStatus.pending ∧
    setStatus BStatus.pending exBookingDone ∈ (updateBookingStatus [exBookingDone] 4 "pending").1 :=
  (((c7_update_status_semantics [exBookingDone] 4 "pending").2 BStatus.pending
    (by decide)).2 exBookingDone (by decide))

/-- C8: create answers a validation failure whenever the appointment date is
not strictly in the future or the appointment time fails the HH:MM rule;
"25:00" and "9:60" fail that rule while "09:00" and "23:59" pass it, and the
concrete requests carrying "09:00" and "23:59" pass the whole chain. -/
theorem c8_create_validation (now : Int) (services : List Service) (store : List Booking)
    (newId : Nat) (inp : CreateInput) (ed : Bool) :
    (inp.appointmentDate ≤ now →
        createBooking now services store newId inp ed =
          ⟨store, CreateResult.validationFailed, false⟩) ∧
    (appointmentTimeOk inp.appointmentTime = false →
        createBooking now services store newId inp ed =
          ⟨store, CreateResult.validationFailed, false⟩) ∧
    appointmentTimeOk "25:00" = false ∧
    appointmentTimeOk "9:60" = false ∧
    appointmentTimeOk "09:00" = true ∧
    appointmentTimeOk "23:59" = true ∧
    validateBookingInput 0 exInput = true ∧
    validateBookingInput 0 { exInput with appointmentTime := "23:59" } = true := by
  refine ⟨?_, ?_, by decide, by decide, by decide, by decide, by decide, by decide⟩
  · intro h
    have hv : validateBookingInput now inp = false := by
      simp [validateBookingInput, futureDateOk, not_lt.mpr h]
    simp [createBooking, hv]
  · intro h
    have hv : validateBookingInput now inp = false := by
      simp [validateBookingInput, h]
    simp [createBooking, hv]

/-- C8 witness: a request dated day 5 is rejected when "now" is already day
5, and the request with time "9:60" is rejected outright. -/
theorem c8_witness :
    ((5 : Int) ≤ 5 ∧
      createBooking 5 exServices [] 2 exInput true =
        ⟨[], CreateResult.validationFailed, false⟩) ∧
    (appointmentTimeOk "9:60" = false ∧
      createBooking 0 exServices [] 2 { exInput with appointmentTime := "9:60" } true =
        ⟨[], CreateResult.validationFailed, false⟩) :=
  ⟨⟨le_refl 5, (c8_create_validation 5 exServices [] 2 exInput true).1 (le_refl 5)⟩,
   ⟨by decide,
    (c8_create_validation 0 exServices [] 2
      { exInput with appointmentTime := "9:60" } true).2.1 (by decide)⟩⟩

/-- C9: a confirmation-email failure is caught and logged; the stored
collection and the 201 response are the same as when the email succeeds. -/
theorem c9_email_failure_absorbed (now : Int) (services : List Service)
    (store : List Booking) (newId : Nat) (inp : CreateInput) (b : Booking)
    (h : (createBooking now services store newId inp true).result = CreateResult.created b) :
    (createBooking now services store newId inp false).result = CreateResult.created b ∧
    (createBooking now services store newId inp false).store =
      (createBooking now services store newId inp true).store ∧
    (createBooking now services store newId inp false).emailFailureLogged = true := by
  by_cases hv : validateBookingInput now inp = true
  · cases hsvc : services.find? (fun x => x.id == inp.serviceId) with
    | none => simp [createBooking, hv, hsvc] at h
    | some svc =>
        cases hc : store.find? (conflictsWith inp.appointmentDate (jsTrim inp.appointmentTime)) with
        | some x => simp [createBooking, hv, hsvc, hc] at h
        | none =>
            refine ⟨?_, by simp [createBooking, hv, hsvc, hc], by simp [createBooking, hv, hsvc, hc]⟩
            simpa [createBooking, hv, hsvc, hc] using h
  · simp [createBooking, hv] at h

/-- The booking the concrete valid request persists. -/
def exSavedBooking : Booking :=
  { id := 2
    clientName := "Alice Smith"
    clientEmail := "alice@example.com"
    clientPhone := "0123456789"
    service := 7
    serviceName := "Haircut"
    servicePrice := 50
    serviceDuration := "45 min"
    serviceCategory := "Hair"
    appointmentDate := 5
    appointmentTime := "10:00"
    notes := "No special requests"
    status := BStatus.pending
    totalAmount := 50
    paymentStatus := PayStatus.pending
    createdAt := 0
    updatedAt := 0 }

/-- C9 witness: the concrete valid create still answers 201 with the saved
booking when the confirmation email fails, and the failure is logged. -/
theorem c9_witness :
    (createBooking 0 exServices [] 2 exInput false).result =
      CreateResult.created exSavedBooking ∧
    (createBooking 0 exServices [] 2 exInput false).store =
      (createBooking 0 exServices [] 2 exInput true).store ∧
    (createBooking 0 exServices [] 2 exInput false).emailFailureLogged = true :=
  c9_email_failure_absorbed 0 exServices [] 2 exInput exSavedBooking (by decide)

/-- C5: every operation keeps `totalAmount` equal to the `servicePrice`
snapshot on the document — create stores the resolved service's price in
both fields, status update and cancel never touch `servicePrice` (and cancel
re-runs the pre-save hook), and a later service-price edit through the
services route leaves the Booking collection untouched. -/
theorem c5_snapshot_total_amount (now : Int) (services : List Service)
    (store : List Booking) (newId : Nat) (inp : CreateInput) (ed : Bool)
    (id : Nat) (s : String) (sid : Nat) (p : Int)
    (hinv : priceInv store) :
    priceInv (createBooking now services store newId inp ed).store ∧
    (∀ b, (createBooking now services store newId inp ed).result = CreateResult.created b →
        b.totalAmount = b.servicePrice ∧
        ∀ svc, services.find? (fun x => x.id == inp.serviceId) = some svc →
            b.servicePrice = svc.price) ∧
    ((updateBookingStatus store id s).1.map (fun b => (b.servicePrice, b.totalAmount)) =
        store.map (fun b => (b.servicePrice, b.totalAmount))) ∧
    priceInv (updateBookingStatus store id s).1 ∧
    ((cancelBooking now store id).1.map Booking.servicePrice =
        store.map Booking.servicePrice) ∧
    priceInv (cancelBooking now store id).1 ∧
    (updateServiceRoute services store sid p).2 = store := by
  refine ⟨?_, ?_, ?_, ?_, ?_, ?_, rfl⟩
  · by_cases hv : validateBookingInput now inp = true
    · cases hsvc : services.find? (fun x => x.id == inp.serviceId) with
      | none => simpa [createBooking, hv, hsvc] using hinv
      | some svc =>
          cases hc : store.find? (conflictsWith inp.appointmentDate (jsTrim inp.appointmentTime)) with
          | some x => simpa [createBooking, hv, hsvc, hc] using hinv
          | none =>
              intro b hb
              simp only [createBooking, hv, if_true, hsvc, hc] at hb
              rcases List.mem_append.mp hb with hmem | hmem
              · exact hinv b hmem
              · rcases List.mem_singleton.mp hmem with rfl
                rfl
    · simpa [createBooking, hv] using hinv
  · intro b hb
    by_cases hv : validateBookingInput now inp = true
    · cases hsvc : services.find? (fun x => x.id == inp.serviceId) with
      | none => simp [createBooking, hv, hsvc] at hb
      | some svc =>
          cases hc : store.find? (conflictsWith inp.appointmentDate (jsTrim inp.appointmentTime)) with
          | some x => simp [createBooking, hv, hsvc, hc] at hb
          | none =>
              simp only [createBooking, hv, if_true, hsvc, hc, CreateResult.created.injEq] at hb
              subst hb
              refine ⟨rfl, fun svc' hsvc' => ?_⟩
              have hsv : svc = svc' := Option.some.inj hsvc'
              subst hsv
              rfl
    · simp [createBooking, hv] at hb
  · cases hst : statusOfString s with
    | none => simp [updateBookingStatus, hst]
    | some st =>
        cases hf : store.find? (fun x => x.id == id) with
        | none => simp [updateBookingStatus, hst, hf]
        | some b =>
            simp only [updateBookingStatus, hst, hf, List.map_map]
            refine List.map_congr_left (fun x _ => ?_)
            by_cases hxid : (x.id == id) = true <;> simp [hxid, setStatus, Function.comp]
  · intro b' hb'
    revert hb'
    cases hst : statusOfString s with
    | none =>
        intro hb'
        exact hinv b' (by simpa [updateBookingStatus, hst] using hb')
    | some st =>
        cases hf : store.find? (fun x => x.id == id) with
        | none =>
            intro hb'
            exact hinv b' (by simpa [updateBookingStatus, hst, hf] using hb')
        | some b =>
            intro hb'
            simp only [updateBookingStatus, hst, hf] at hb'
            rcases List.mem_map.mp hb' with ⟨x, hx, rfl⟩
            by_cases hxid : (x.id == id) = true <;>
              simp [hxid, setStatus, hinv x hx]
  · cases hf : store.find? (fun x => x.id == id) with
    | none => simp [cancelBooking, hf]
    | some b =>
        by_cases hcan : (b.status == BStatus.cancelled) = true
        · simp [cancelBooking, hf, hcan]
        · by_cases hcom : (b.status == BStatus.completed) = true
          · simp [cancelBooking, hf, hcan, hcom]
          · simp only [cancelBooking, hf, hcan, hcom, Bool.false_eq_true, if_false,
              List.map_map]
            refine List.map_congr_left (fun x _ => ?_)
            by_cases hxid : (x.id == id) = true <;>
              simp [hxid, preSave, setStatus, Function.comp]
  · intro b' hb'
    revert hb'
    cases hf : store.find? (fun x => x.id == id) with
    | none =>
        intro hb'
        exact hinv b' (by simpa [cancelBooking, hf] using hb')
    | some b =>
        by_cases hcan : (b.status == BStatus.cancelled) = true
        · intro hb'
          exact hinv b' (by simpa [cancelBooking, hf, hcan] using hb')
        · by_cases hcom : (b.status == BStatus.completed) = true
          · intro hb'
            exact hinv b' (by simpa [cancelBooking, hf, hcan, hcom] using hb')
          · intro hb'
            simp only [cancelBooking, hf, hcan, hcom, Bool.false_eq_true, if_false] at hb'
            rcases List.mem_map.mp hb' with ⟨x, hx, rfl⟩
            by_cases hxid : (x.id == id) = true <;>
              simp [hxid, preSave, setStatus, hinv x hx]

/-- C5 witness: on the concrete store the invariant survives a create, a
status update, and a cancel. -/
theorem c5_witness :
    priceInv (createBooking 0 exServices [exBooking] 2
      { exInput with appointmentTime := "11:00" } true).store ∧
    priceInv (updateBookingStatus [exBooking] 1 "confirmed").1 ∧
    priceInv (cancelBooking 0 [exBooking] 1).1 :=
  ⟨(c5_snapshot_total_amount 0 exServices [exBooking] 2
      { exInput with appointmentTime := "11:00" } true 1 "confirmed" 7 75
      (fun b hb => by rcases List.mem_singleton.mp hb with rfl; rfl)).1,
   (c5_snapshot_total_amount 0 exServices [exBooking] 2
      { exInput with appointmentTime := "11:00" } true 1 "confirmed" 7 75
      (fun b hb => by rcases List.mem_singleton.mp hb with rfl; rfl)).2.2.2.1,
   (c5_snapshot_total_amount 0 exServices [exBooking] 2
      { exInput with appointmentTime := "11:00" } true 1 "confirmed" 7 75
      (fun b hb => by rcases List.mem_singleton.mp hb with rfl; rfl)).2.2.2.2.2.1⟩

/-- C10: the availability subtraction compares booked times by string
equality against the zero-padded grid strings, so a booking whose time lies
outside the grid — such as "9:00" or "10:17", both accepted by the time
validation — never removes any slot. -/
theorem c10_offgrid_time_never_blocks (services : List Service) (store : List Booking)
    (sidOpt : Option Nat) (date : Int) (b : Booking)
    (hoff : b.appointmentTime ∉ slotGrid) :
    availableSlots services (b :: store) sidOpt date =
      availableSlots services store sidOpt date ∧
    appointmentTimeOk "9:00" = true ∧ ("9:00" : String) ∉ slotGrid ∧
    appointmentTimeOk "10:17" = true ∧ ("10:17" : String) ∉ slotGrid := by
  refine ⟨?_, by decide, by decide, by decide, by decide⟩
  cases sidOpt with
  | none => rfl
  | some sid =>
      cases hsvc : services.find? (fun x => x.id == sid) with
      | none => simp [availableSlots, hsvc]
      | some svc =>
          by_cases hday : (dayOfWeek date == 0) = true
          · simp [availableSlots, hsvc, hday]
          · by_cases hact : activeOnDate date b = true
            · simp only [availableSlots, hsvc, hday, Bool.false_eq_true, if_false,
                List.filter_cons, hact, if_true, List.map_cons]
              congr 1
              refine List.filter_congr (fun t ht => ?_)
              have hne : (t == b.appointmentTime) = false := by
                have : t ≠ b.appointmentTime := fun h => hoff (h ▸ ht)
                simp [this]
              simp [List.contains_cons, hne]
            · simp [availableSlots, hsvc, hday, List.filter_cons, hact]

/-- C10 witness: an active booking at "9:00" on day 5 leaves the availability
answer for day 5 identical to the answer with no bookings at all. -/
theorem c10_witness :
    availableSlots exServices [{ exBooking with appointmentTime := "9:00" }] (some 7) 5 =
      availableSlots exServices [] (some 7) 5 ∧
    appointmentTimeOk "9:00" = true ∧ ("9:00" : String) ∉ slotGrid ∧
    appointmentTimeOk "10:17" = true ∧ ("10:17" : String) ∉ slotGrid :=
  c10_offgrid_time_never_blocks exServices [] (some 7) 5
    { exBooking with appointmentTime := "9:00" } (by decide)

/-- A create request at day 5 with the non-canonical time "9:00", accepted
by validation. -/
def exInputNine : CreateInput :=
  { exInput with appointmentTime := "9:00" }

/-- A create request dated day 3 — a Sunday — at the grid time "10:00". -/
def exInputSunday : CreateInput :=
  { exInput with appointmentDate := 3 }

/-- C2 counterexample: a booking created (pending) at day 5 with the
accepted non-canonical time "9:00" and then cancelled is never included by a
later availability answer for day 5, which is the full grid without "9:00";
likewise a booking created on the Sunday day 3 at "10:00" and then cancelled
is never included, the Sunday answer being empty. -/
theorem c2_counterexample :
    ((createBooking 0 exServices [] 1 exInputNine true).store.map
        (fun b => (b.appointmentDate, b.appointmentTime, b.status)) =
      [((5 : Int), "9:00", BStatus.pending)]) ∧
    ((cancelBooking 0 (createBooking 0 exServices [] 1 exInputNine true).store 1).1.map
        Booking.status = [BStatus.cancelled]) ∧
    availableSlots exServices
        (cancelBooking 0 (createBooking 0 exServices [] 1 exInputNine true).store 1).1
        (some 7) 5 = SlotsResult.ok slotGrid ∧
    ("9:00" : String) ∉ slotGrid ∧
    ((createBooking 0 exServices [] 1 exInputSunday true).store.map
        (fun b => (b.appointmentDate, b.appointmentTime, b.status)) =
      [((3 : Int), "10:00", BStatus.pending)]) ∧
    ((cancelBooking 0 (createBooking 0 exServices [] 1 exInputSunday true).store 1).1.map
        Booking.status = [BStatus.cancelled]) ∧
    availableSlots exServices
        (cancelBooking 0 (createBooking 0 exServices [] 1 exInputSunday true).store 1).1
        (some 7) 3 = SlotsResult.ok [] := by
  decide

/-- C2 as amended: after a successful create at (D, T) every availability
answer for D excludes T; and after cancelling that booking, an availability
answer for D includes T again provided D falls on an open weekday and T is
one of the canonical zero-padded grid strings. -/
theorem c2_cancel_restores_grid_slot (now now2 : Int) (services : List Service)
    (store : List Booking) (newId : Nat) (inp : CreateInput) (ed : Bool) (svc : Service)
    (hv : validateBookingInput now inp = true)
    (hsvc : services.find? (fun x => x.id == inp.serviceId) = some svc)
    (hnoc : store.find? (conflictsWith inp.appointmentDate (jsTrim inp.appointmentTime)) = none)
    (hfresh : ∀ x ∈ store, x.id ≠ newId) :
    (createBooking now services store newId inp ed).store =
      store ++ [mkBooking now newId inp svc] ∧
    (∀ sidOpt slots,
        availableSlots services (createBooking now services store newId inp ed).store
            sidOpt inp.appointmentDate = SlotsResult.ok slots →
        jsTrim inp.appointmentTime ∉ slots) ∧
    (cancelBooking now2 (createBooking now services store newId inp ed).store newId).2 =
      CancelResult.cancelled
        (preSave now2 (setStatus BStatus.cancelled (mkBooking now newId inp svc))) ∧
    (∀ sid slots,
        availableSlots services
            (cancelBooking now2 (createBooking now services store newId inp ed).store newId).1
            (some sid) inp.appointmentDate = SlotsResult.ok slots →
        dayOfWeek inp.appointmentDate ≠ 0 →
        jsTrim inp.appointmentTime ∈ slotGrid →
        jsTrim inp.appointmentTime ∈ slots) := by
  have hstore1 : (createBooking now services store newId inp ed).store =
      store ++ [mkBooking now newId inp svc] := by
    simp [createBooking, hv, hsvc, hnoc]
  have hsavedid : ((mkBooking now newId inp svc).id == newId) = true := by
    simp [mkBooking, preSave]
  have hfindstore : store.find? (fun x => x.id == newId) = none :=
    List.find?_eq_none.mpr (fun x hx => by simp [hfresh x hx])
  have hfind1 : (store ++ [mkBooking now newId inp svc]).find? (fun x => x.id == newId) =
      some (mkBooking now newId inp svc) := by
    rw [List.find?_append, hfindstore]
    simp [List.find?, hsavedid]
  have hnotcan : ((mkBooking now newId inp svc).status == BStatus.cancelled) = false := by
    simp [mkBooking, preSave]
  have hnotcom : ((mkBooking now newId inp svc).status == BStatus.completed) = false := by
    simp [mkBooking, preSave]
  have hstore2 : (cancelBooking now2 (store ++ [mkBooking now newId inp svc]) newId).1 =
      (store ++ [mkBooking now newId inp svc]).map
        (fun x => if x.id == newId then preSave now2 (setStatus BStatus.cancelled x) else x) := by
    simp [cancelBooking, hfind1, hnotcan, hnotcom]
  have hres2 : (cancelBooking now2 (store ++ [mkBooking now newId inp svc]) newId).2 =
      CancelResult.cancelled
        (preSave now2 (setStatus BStatus.cancelled (mkBooking now newId inp svc))) := by
    simp [cancelBooking, hfind1, hnotcan, hnotcom]
  refine ⟨hstore1, ?_, by rw [hstore1]; exact hres2, ?_⟩
  · intro sidOpt slots h
    rw [hstore1] at h
    cases sidOpt with
    | none => simp [availableSlots] at h
    | some sid =>
        cases hs : services.find? (fun x => x.id == sid) with
        | none => simp [availableSlots, hs] at h
        | some s0 =>
            by_cases hday : (dayOfWeek inp.appointmentDate == 0) = true
            · simp only [availableSlots, hs, hday, if_true, SlotsResult.ok.injEq] at h
              subst h
              simp
            · have hday' : (dayOfWeek inp.appointmentDate == 0) = false := by
                revert hday
                cases dayOfWeek inp.appointmentDate == 0 <;> simp
              simp only [availableSlots, hs, hday', Bool.false_eq_true, if_false,
                SlotsResult.ok.injEq] at h
              subst h
              intro hmem
              have hp := (List.mem_filter.mp hmem).2
              have hTmem : jsTrim inp.appointmentTime ∈
                  ((store ++ [mkBooking now newId inp svc]).filter
                    (activeOnDate inp.appointmentDate)).map Booking.appointmentTime := by
                refine List.mem_map.mpr ⟨mkBooking now newId inp svc, ?_, rfl⟩
                refine List.mem_filter.mpr ⟨List.mem_append_right _ (List.mem_singleton_self _), ?_⟩
                simp [activeOnDate, mkBooking, preSave]
              have hc : (((store ++ [mkBooking now newId inp svc]).filter
                  (activeOnDate inp.appointmentDate)).map Booking.appointmentTime).contains
                    (jsTrim inp.appointmentTime) = true :=
                List.contains_iff_exists_mem_beq.mpr ⟨_, hTmem, by simp⟩
              simp only [hc] at hp
              simp at hp
  · intro sid slots h hday hgrid
    rw [hstore1, hstore2] at h
    cases hs : services.find? (fun x => x.id == sid) with
    | none => simp [availableSlots, hs] at h
    | some s0 =>
        have hday' : (dayOfWeek inp.appointmentDate == 0) = false := by
          simpa using hday
        simp only [availableSlots, hs, hday', Bool.false_eq_true, if_false,
          SlotsResult.ok.injEq] at h
        subst h
        refine List.mem_filter.mpr ⟨hgrid, ?_⟩
        have hnot : jsTrim inp.appointmentTime ∉
            (((store ++ [mkBooking now newId inp svc]).map
                (fun x => if x.id == newId then preSave now2 (setStatus BStatus.cancelled x) else x)).filter
              (activeOnDate inp.appointmentDate)).map Booking.appointmentTime := by
          intro hmem
          rcases List.mem_map.mp hmem with ⟨y, hy, hyt⟩
          rcases List.mem_filter.mp hy with ⟨hymem, hyact⟩
          rcases List.mem_map.mp hymem with ⟨x, hx, rfl⟩
          by_cases hxid : (x.id == newId) = true
          · rw [if_pos hxid] at hyact
            simp [activeOnDate, preSave, setStatus] at hyact
          · rcases List.mem_append.mp hx with hxs | hxs
            · have hnc := List.find?_eq_none.mp hnoc x hxs
              rw [if_neg hxid] at hyact hyt
              simp only [activeOnDate, Bool.and_eq_true, Bool.or_eq_true, beq_iff_eq] at hyact
              rcases hyact with ⟨hxd, hxs'⟩
              rcases hxs' with hst | hst <;>
                exact hnc (by simp [conflictsWith, hxd, hyt, hst])
            · rcases List.mem_singleton.mp hxs with rfl
              exact hxid hsavedid
        have hc2 : ((((store ++ [mkBooking now newId inp svc]).map
              (fun x => if x.id == newId then preSave now2 (setStatus BStatus.cancelled x) else x)).filter
              (activeOnDate inp.appointmentDate)).map Booking.appointmentTime).contains
            (jsTrim inp.appointmentTime) = false := by
          cases hcc : ((((store ++ [mkBooking now newId inp svc]).map
              (fun x => if x.id == newId then preSave now2 (setStatus BStatus.cancelled x) else x)).filter
              (activeOnDate inp.appointmentDate)).map Booking.appointmentTime).contains
              (jsTrim inp.appointmentTime) with
          | false => rfl
          | true =>
              exfalso
              rcases List.contains_iff_exists_mem_beq.mp hcc with ⟨a, ha, hba⟩
              have hTa : jsTrim inp.appointmentTime = a := by simpa using hba
              exact hnot (by rwa [← hTa] at ha)
        simp only [hc2, Bool.not_false]

/-- C2 witness: the concrete create at day 5, "10:00" makes "10:00"
disappear from the availability answer, and after the cancel "10:00" is
again a member of the (full) answered grid. -/
theorem c2_witness :
    ("10:00" : String) ∉ (["09:00", "09:30", "10:30", "11:00", "11:30",
      "12:00", "12:30", "13:00", "13:30", "14:00", "14:30",
      "15:00", "15:30", "16:00", "16:30", "17:00", "17:30"] : List String) ∧
    ("10:00" : String) ∈ slotGrid :=
  ⟨(c2_cancel_restores_grid_slot 0 0 exServices [] 1 exInput true exService
      (by decide) (by decide) (by decide) (by simp)).2.1 (some 7)
      (["09:00", "09:30", "10:30", "11:00", "11:30",
        "12:00", "12:30", "13:00", "13:30", "14:00", "14:30",
        "15:00", "15:30", "16:00", "16:30", "17:00", "17:30"] : List String) (by decide),
   (c2_cancel_restores_grid_slot 0 0 exServices [] 1 exInput true exService
      (by decide) (by decide) (by decide) (by simp)).2.2.2 7 slotGrid
      (by decide) (by decide) (by decide)⟩

end LuxeSalon
